import Mathlib

/-!
Formal model of `scripts/tools/topology.py`: the topology-expansion and
permission-synthesis core (`format_tokens`, `expand_role_users`,
`build_nats_authz`) of the rms-sync-mgmt repository, together with proofs
of the specified properties.

The configuration document is modelled by structures mirroring exactly the
keys the code reads; optional keys (read with `.get(key, default)` in the
source) are `Option` fields, with the source's default applied at the use
site, exactly as the code does.
-/

namespace Topo

/-- Opening curly brace character (spelled via its code point). -/
def lbrace : Char := Char.ofNat 123

/-- Closing curly brace character (spelled via its code point). -/
def rbrace : Char := Char.ofNat 125

/-- Errors raised by template substitution, mirroring Python `str.format`:
`missingKey k` models `KeyError(k)` (the exception payload is exactly the
missing key name), `badFormat` models `ValueError` for malformed templates. -/
inductive FmtError where
  | missingKey (key : String)
  | badFormat (msg : String)
deriving DecidableEq

/-- Message text carried by a `FmtError`: for `missingKey k` the payload of
the raised `KeyError` is the key name `k` itself, for `badFormat` the
`ValueError` message. -/
def errText : FmtError → String
  | .missingKey k => k
  | .badFormat m => m

/-- Scanner state for template substitution: either plain text, or inside a
replacement field collecting the (reversed) key characters. -/
inductive FmtState where
  | text
  | key (acc : List Char)

/-- Core scanner of Python `str.format` restricted to named replacement
fields, as used by `format_tokens` in the source: `\x7b\x7b` and `\x7d\x7d`
are literal braces, `\x7bname\x7d` is looked up in the keyword context
(missing name raises `KeyError name`), a lone brace is a `ValueError`. -/
def fmtAux (ctx : String → Option String) : FmtState → List Char → Except FmtError (List Char)
  | .text, [] => .ok []
  | .text, [c] =>
    if c = lbrace then .error (.badFormat "Single brace encountered in format string")
    else if c = rbrace then .error (.badFormat "Single brace encountered in format string")
    else .ok [c]
  | .text, c :: d :: ds =>
    if c = lbrace then
      if d = lbrace then (fmtAux ctx .text ds).map (fun r => lbrace :: r)
      else fmtAux ctx (.key []) (d :: ds)
    else if c = rbrace then
      if d = rbrace then (fmtAux ctx .text ds).map (fun r => rbrace :: r)
      else .error (.badFormat "Single brace encountered in format string")
    else (fmtAux ctx .text (d :: ds)).map (fun r => c :: r)
  | .key _, [] => .error (.badFormat "expected closing brace before end of string")
  | .key acc, c :: cs =>
    if c = rbrace then
      match ctx (String.mk acc) with
      | none => .error (.missingKey (String.mk acc))
      | some v => (fmtAux ctx .text cs).map (fun r => v.data ++ r)
    else fmtAux ctx (.key (acc ++ [c])) cs

/-- Model of `format_tokens(template, **kw)` (source line 50-51): Python
`template.format(**kw)` with the keyword arguments given as a lookup
function. -/
def format_tokens (template : String) (ctx : String → Option String) : Except FmtError String :=
  match fmtAux ctx .text template.data with
  | .ok r => .ok (String.mk r)
  | .error e => .error e

/-- Keyword-argument context: lookup by key in an association list, as
Python keyword arguments behave. -/
def kwCtx (kvs : List (String × String)) : String → Option String :=
  fun k => (kvs.find? (fun p => p.1 == k)).map (fun p => p.2)

/-- Left-to-right effectful map over a list in the `Except` monad: models a
Python list comprehension in which each element may raise, with the first
raise propagating. -/
def mapE (f : α → Except ε β) : List α → Except ε (List β)
  | [] => .ok []
  | x :: xs =>
    match f x with
    | .error e => .error e
    | .ok y =>
      match mapE f xs with
      | .error e => .error e
      | .ok ys => .ok (y :: ys)

/-- Cartesian product of two lists in nested-loop order (outer list major),
modelling the nested `for` loops of the source. -/
def prod2 : List α → List β → List (α × β)
  | [], _ => []
  | x :: xs, ys => ys.map (fun y => (x, y)) ++ prod2 xs ys

/-- Cartesian product of three lists in nested-loop order: outer, middle,
inner, modelling triply nested `for` loops. -/
def prod3 (xs : List α) (ys : List β) (zs : List γ) : List (α × β × γ) :=
  prod2 xs (prod2 ys zs)

/-- One role template from the `roles` section: a username pattern and the
publish/subscribe subject pattern lists. -/
structure RoleTemplate where
  userTemplate : String
  publish : List String
  subscribe : List String
deriving DecidableEq

/-- The six role templates read by `expand_role_users`. -/
structure RolesCfg where
  relayCentral : RoleTemplate
  relayZone : RoleTemplate
  relaySubzone : RoleTemplate
  leafCentral : RoleTemplate
  leafZone : RoleTemplate
  leafSubzone : RoleTemplate
deriving DecidableEq

/-- The `topology` section: the keys read at source lines 55-60. -/
structure TopologyCfg where
  centralId : String
  zones : List String
  subzonesPerZone : List String
  leavesPerAttachment : List String
  zoneForCentralAttachedLeaves : String
deriving DecidableEq

/-- The `auth.admin` block; all keys are read with `.get`, hence optional. -/
structure AdminCfg where
  username : Option String
  password : Option String
  publishAllow : Option (List String)
  subscribeAllow : Option (List String)
deriving DecidableEq

/-- The `auth.jsClientInternal` block; both keys optional with default `[]`. -/
structure JsClientInternal where
  publishAllow : Option (List String)
  subscribeAllow : Option (List String)
deriving DecidableEq

/-- The `auth` section; every key is read with `.get` and a default. -/
structure AuthCfg where
  enforcePermissions : Option Bool
  passwordPfx : Option String
  admin : Option AdminCfg
  jsClientInternal : Option JsClientInternal
deriving DecidableEq

/-- The whole configuration document: `topology`, `roles` (indexed
directly, hence required) and `auth` (read with `cfg.get("auth", \x7b\x7d)`,
hence optional). -/
structure Config where
  topology : TopologyCfg
  roles : RolesCfg
  auth : Option AuthCfg
deriving DecidableEq

/-- One expanded principal record, as appended by `expand_role_users`:
positional context fields are `none` exactly when the source dict omits
them for that role. -/
structure UserRec where
  username : String
  role : String
  zone : Option String := none
  subzone : Option String := none
  leafId : Option String := none
  publish : List String
  subscribe : List String
deriving DecidableEq

/-- Model of `expand_role_users(cfg)` (source lines 54-133): the six role
categories instantiated over the topology in the source's loop order, each
instantiation substituting exactly the keyword arguments passed at the
corresponding call site. -/
def expand_role_users (cfg : Config) : Except FmtError (List UserRec) := do
  let t := cfg.topology
  let zones := t.zones
  let subzones := t.subzonesPerZone
  let leaves := t.leavesPerAttachment
  let central_id := t.centralId
  let zone_central := t.zoneForCentralAttachedLeaves
  let roles := cfg.roles

  -- Central relay
  let cUser ← format_tokens roles.relayCentral.userTemplate
    (kwCtx [("centralId", central_id)])
  let cPub ← mapE (fun s => format_tokens s
    (kwCtx [("centralId", central_id), ("zoneForCentralAttachedLeaves", zone_central)]))
    roles.relayCentral.publish
  let cSub ← mapE (fun s => format_tokens s
    (kwCtx [("centralId", central_id), ("zoneForCentralAttachedLeaves", zone_central)]))
    roles.relayCentral.subscribe
  let central : UserRec :=
    { username := cUser, role := "relayCentral", publish := cPub, subscribe := cSub }

  -- Zone relays
  let zoneUsers ← mapE (fun z => do
    let un ← format_tokens roles.relayZone.userTemplate
      (kwCtx [("centralId", central_id), ("zone", z)])
    let pb ← mapE (fun s => format_tokens s
      (kwCtx [("centralId", central_id), ("zone", z)])) roles.relayZone.publish
    let sb ← mapE (fun s => format_tokens s
      (kwCtx [("centralId", central_id), ("zone", z)])) roles.relayZone.subscribe
    pure { username := un, role := "relayZone", zone := some z,
           publish := pb, subscribe := sb : UserRec }) zones

  -- Subzone relays
  let subzoneUsers ← mapE (fun p => do
    let un ← format_tokens roles.relaySubzone.userTemplate
      (kwCtx [("centralId", central_id), ("zone", p.1), ("subzone", p.2)])
    let pb ← mapE (fun s => format_tokens s
      (kwCtx [("centralId", central_id), ("zone", p.1), ("subzone", p.2)]))
      roles.relaySubzone.publish
    let sb ← mapE (fun s => format_tokens s
      (kwCtx [("centralId", central_id), ("zone", p.1), ("subzone", p.2)]))
      roles.relaySubzone.subscribe
    pure { username := un, role := "relaySubzone", zone := some p.1, subzone := some p.2,
           publish := pb, subscribe := sb : UserRec }) (prod2 zones subzones)

  -- Leaf users: central-attached
  let centralLeafUsers ← mapE (fun leaf => do
    let un ← format_tokens roles.leafCentral.userTemplate
      (kwCtx [("centralId", central_id), ("zoneForCentralAttachedLeaves", zone_central),
              ("leafId", leaf)])
    let pb ← mapE (fun s => format_tokens s
      (kwCtx [("centralId", central_id), ("zoneForCentralAttachedLeaves", zone_central),
              ("leafId", leaf)])) roles.leafCentral.publish
    let sb ← mapE (fun s => format_tokens s
      (kwCtx [("centralId", central_id), ("zoneForCentralAttachedLeaves", zone_central),
              ("leafId", leaf)])) roles.leafCentral.subscribe
    pure { username := un, role := "leafCentral", zone := some zone_central,
           leafId := some leaf, publish := pb, subscribe := sb : UserRec }) leaves

  -- Leaf users: zone-attached
  let zoneLeafUsers ← mapE (fun p => do
    let un ← format_tokens roles.leafZone.userTemplate
      (kwCtx [("centralId", central_id), ("zone", p.1), ("leafId", p.2)])
    let pb ← mapE (fun s => format_tokens s
      (kwCtx [("centralId", central_id), ("zone", p.1), ("leafId", p.2)]))
      roles.leafZone.publish
    let sb ← mapE (fun s => format_tokens s
      (kwCtx [("centralId", central_id), ("zone", p.1), ("leafId", p.2)]))
      roles.leafZone.subscribe
    pure { username := un, role := "leafZone", zone := some p.1, leafId := some p.2,
           publish := pb, subscribe := sb : UserRec }) (prod2 zones leaves)

  -- Leaf users: subzone-attached
  let subzoneLeafUsers ← mapE (fun p => do
    let un ← format_tokens roles.leafSubzone.userTemplate
      (kwCtx [("centralId", central_id), ("zone", p.1), ("subzone", p.2.1),
              ("leafId", p.2.2)])
    let pb ← mapE (fun s => format_tokens s
      (kwCtx [("centralId", central_id), ("zone", p.1), ("subzone", p.2.1),
              ("leafId", p.2.2)])) roles.leafSubzone.publish
    let sb ← mapE (fun s => format_tokens s
      (kwCtx [("centralId", central_id), ("zone", p.1), ("subzone", p.2.1),
              ("leafId", p.2.2)])) roles.leafSubzone.subscribe
    pure { username := un, role := "leafSubzone", zone := some p.1, subzone := some p.2.1,
           leafId := some p.2.2, publish := pb, subscribe := sb : UserRec })
    (prod3 zones subzones leaves)

  pure ([central] ++ zoneUsers ++ subzoneUsers ++ centralLeafUsers
        ++ zoneLeafUsers ++ subzoneLeafUsers)

/-- Errors raised by `build_nats_authz`: the explicit `ValueError` for the
missing admin credential, or a propagated template error from expansion. -/
inductive BuildError where
  | valueError (msg : String)
  | fmt (e : FmtError)
deriving DecidableEq

/-- One entry of the `users = [...]` list: `permissions` carries the
publish-allow and subscribe-allow lists and is present only in enforced
mode. -/
structure Entry where
  user : String
  password : String
  permissions : Option (List String × List String) := none
deriving DecidableEq

/-- Empty `auth` section, the default for `cfg.get("auth", \x7b\x7d)`. -/
def emptyAuth : AuthCfg := ⟨none, none, none, none⟩

/-- Empty admin block, the default for `auth_cfg.get("admin") or \x7b\x7d`. -/
def emptyAdmin : AdminCfg := ⟨none, none, none, none⟩

/-- Empty `jsClientInternal` block, the `.get` default. -/
def emptyJs : JsClientInternal := ⟨none, none⟩

/-- Model of `auth_cfg = cfg.get("auth", \x7b\x7d)` (source line 153). -/
def authOf (cfg : Config) : AuthCfg := cfg.auth.getD emptyAuth

/-- Model of `enforce = bool(auth_cfg.get("enforcePermissions", True))`
(source line 154). -/
def enforceOf (cfg : Config) : Bool := (authOf cfg).enforcePermissions.getD true

/-- Model of `pwd_prefix = auth_cfg.get("passwordPrefix", "pwd_")`
(source line 155). -/
def pwdPfx (cfg : Config) : String := (authOf cfg).passwordPfx.getD "pwd_"

/-- Model of `admin = auth_cfg.get("admin") or \x7b\x7d` (source line 160). -/
def adminOf (cfg : Config) : AdminCfg := (authOf cfg).admin.getD emptyAdmin

/-- Model of `auth_cfg.get("jsClientInternal", \x7b\x7d).get("publishAllow", [])`
(source line 165). -/
def jsPub (cfg : Config) : List String :=
  ((authOf cfg).jsClientInternal.getD emptyJs).publishAllow.getD []

/-- Model of `auth_cfg.get("jsClientInternal", \x7b\x7d).get("subscribeAllow", [])`
(source line 166). -/
def jsSub (cfg : Config) : List String :=
  ((authOf cfg).jsClientInternal.getD emptyJs).subscribeAllow.getD []

/-- Python truthiness of an optional string: `None` and the empty string are
falsy, every other string truthy (used by `not admin.get("username")`). -/
def truthyStr : Option String → Bool
  | none => false
  | some s => !(s == "")

/-- Computable code-point-lexicographic comparison of character lists,
mirroring Python string comparison (`as ≤ bs`). -/
def listLeB : List Char → List Char → Bool
  | [], _ => true
  | _ :: _, [] => false
  | a :: as, b :: bs =>
    if a.toNat < b.toNat then true
    else if b.toNat < a.toNat then false
    else listLeB as bs

/-- Computable lexicographic order on strings by code point, as Python
`sorted` compares strings. -/
def strLeB (a b : String) : Bool := listLeB a.data b.data

/-- Insert a string into a (sorted) list, keeping order. -/
def insertStr (x : String) : List String → List String
  | [] => [x]
  | y :: ys => if strLeB x y then x :: y :: ys else y :: insertStr x ys

/-- Insertion sort on strings; on duplicate-free input it computes exactly
the Python `sorted` order (code-point lexicographic). -/
def sortStrings (l : List String) : List String := l.foldr insertStr []

/-- Model of `sorted(set(l))` (source lines 183-184): deduplicate, then
sort lexicographically by code point. -/
def allowList (l : List String) : List String := sortStrings l.dedup

/-- Variant of `allowList` taking an oracle that models the arbitrary
iteration order of the Python `set`: `sorted` is applied to the set's
elements in whatever order the oracle yields them. -/
def allowListOrd (oracle : List String → List String) (l : List String) : List String :=
  sortStrings (oracle l.dedup)

/-- Model of `val.replace("\x22", "\x5c\x22")` from the helper `q`
(source line 202): a backslash is inserted before every double quote. -/
def escQ : List Char → List Char
  | [] => []
  | c :: cs => if c = '"' then '\\' :: '"' :: escQ cs else c :: escQ cs

/-- Model of the renderer helper `q(val)` (source lines 201-202): wrap in
double quotes, backslash-escaping every embedded double quote. -/
def q (val : String) : String := "\"" ++ String.mk (escQ val.data) ++ "\""

/-- The `users` list built by `build_nats_authz` before serialization
(source lines 157-199): admin entry first, then one entry per expanded
principal with the synthesized password; permission blocks only when
enforcement is on. -/
def build_nats_entries (cfg : Config) : Except BuildError (List Entry) :=
  let enforce := enforceOf cfg
  let pfx := pwdPfx cfg
  let admin := adminOf cfg
  if !truthyStr admin.username || !truthyStr admin.password then
    .error (.valueError "auth.admin.username/password must be set in topology.yml")
  else if enforce then
    match expand_role_users cfg with
    | .error e => .error (.fmt e)
    | .ok us =>
      .ok ({ user := admin.username.getD "", password := admin.password.getD "",
             permissions := some (admin.publishAllow.getD [">"],
                                  admin.subscribeAllow.getD [">"]) } ::
           us.map (fun u =>
             { user := u.username, password := pfx ++ u.username,
               permissions := some (allowList (u.publish ++ jsPub cfg),
                                    allowList (u.subscribe ++ jsSub cfg)) }))
  else
    match expand_role_users cfg with
    | .error e => .error (.fmt e)
    | .ok us =>
      .ok ({ user := admin.username.getD "", password := admin.password.getD "" } ::
           us.map (fun u => { user := u.username, password := pfx ++ u.username }))

/-- Serialization of one user entry (source lines 208-224): the permission
sub-block is emitted exactly when enforcement is on, and the closing brace
carries a comma unless this is the last entry. -/
def renderEntryLines (enforce : Bool) (e : Entry) (isLast : Bool) : List String :=
  ["    \x7b",
   "      user = " ++ q e.user,
   "      password = " ++ q e.password]
  ++ (if enforce then
        let perms := e.permissions.getD ([], [])
        ["      permissions = \x7b",
         "        publish = \x7b",
         "          allow = [" ++ String.intercalate ", " (perms.1.map q) ++ "]",
         "        \x7d",
         "        subscribe = \x7b",
         "          allow = [" ++ String.intercalate ", " (perms.2.map q) ++ "]",
         "        \x7d",
         "      \x7d"]
      else [])
  ++ ["    \x7d" ++ (if isLast then "" else ",")]

/-- Serialization of the whole entry list with the trailing-comma rule of
`idx < len(users) - 1` (source line 224). -/
def renderEntries (enforce : Bool) : List Entry → List String
  | [] => []
  | [e] => renderEntryLines enforce e true
  | e :: e2 :: rest => renderEntryLines enforce e false ++ renderEntries enforce (e2 :: rest)

/-- Model of `build_nats_authz(cfg)` (source lines 136-228): build the user
entries, serialize them inside the `authorization` block, join the lines
with newlines and append a final newline. -/
def build_nats_authz (cfg : Config) : Except BuildError String :=
  match build_nats_entries cfg with
  | .error e => .error e
  | .ok entries =>
    .ok (String.intercalate "\n"
          (["authorization \x7b", "  users = ["]
            ++ renderEntries (enforceOf cfg) entries ++ ["  ]", "\x7d"]) ++ "\n")

/-- Variant of `build_nats_entries` exposing the Python `set` iteration
order as an oracle: identical to the source except that `sorted(set(...))`
is computed as `sortStrings` of the set elements in oracle order. With
`oracle = id` this is exactly `build_nats_entries`. -/
def build_nats_entries_ord (oracle : List String → List String) (cfg : Config) :
    Except BuildError (List Entry) :=
  let enforce := enforceOf cfg
  let pfx := pwdPfx cfg
  let admin := adminOf cfg
  if !truthyStr admin.username || !truthyStr admin.password then
    .error (.valueError "auth.admin.username/password must be set in topology.yml")
  else if enforce then
    match expand_role_users cfg with
    | .error e => .error (.fmt e)
    | .ok us =>
      .ok ({ user := admin.username.getD "", password := admin.password.getD "",
             permissions := some (admin.publishAllow.getD [">"],
                                  admin.subscribeAllow.getD [">"]) } ::
           us.map (fun u =>
             { user := u.username, password := pfx ++ u.username,
               permissions := some (allowListOrd oracle (u.publish ++ jsPub cfg),
                                    allowListOrd oracle (u.subscribe ++ jsSub cfg)) }))
  else
    match expand_role_users cfg with
    | .error e => .error (.fmt e)
    | .ok us =>
      .ok ({ user := admin.username.getD "", password := admin.password.getD "" } ::
           us.map (fun u => { user := u.username, password := pfx ++ u.username }))

/-- Variant of `build_nats_authz` threading the set-iteration-order oracle. -/
def build_nats_authz_ord (oracle : List String → List String) (cfg : Config) :
    Except BuildError String :=
  match build_nats_entries_ord oracle cfg with
  | .error e => .error e
  | .ok entries =>
    .ok (String.intercalate "\n"
          (["authorization \x7b", "  users = ["]
            ++ renderEntries (enforceOf cfg) entries ++ ["  ]", "\x7d"]) ++ "\n")

/-- Rank of the six role categories in the fixed output order of the
expander. -/
def roleRank : String → Nat
  | "relayCentral" => 0
  | "relayZone" => 1
  | "relaySubzone" => 2
  | "leafCentral" => 3
  | "leafZone" => 4
  | "leafSubzone" => 5
  | _ => 6

/-- Modelled from the spec: authentication-only serialization, in which
every entry consists of exactly a `user` line and a `password` line (plus
the entry braces and trailing-comma rule) and no `permissions` block. Used
to state the mode-toggle claim. -/
def authOnlyLines : List Entry → List String
  | [] => []
  | [e] => ["    \x7b", "      user = " ++ q e.user,
            "      password = " ++ q e.password, "    \x7d"]
  | e :: e2 :: rest =>
    ["    \x7b", "      user = " ++ q e.user,
     "      password = " ++ q e.password, "    \x7d,"] ++ authOnlyLines (e2 :: rest)

/-- Modelled from the spec: the string-literal rule of the target
configuration grammar (double-quoted, a backslash escapes the following
character, the literal ends at the first unescaped double quote). Consumes
the characters after the opening quote and requires the closing quote to
end the literal exactly. -/
def unqGo : List Char → Option (List Char)
  | [] => none
  | c :: cs =>
    if c = '"' then (if cs = [] then some [] else none)
    else if c = '\\' then
      match cs with
      | [] => none
      | d :: ds => (unqGo ds).map (fun r => d :: r)
    else (unqGo cs).map (fun r => c :: r)

/-- Modelled from the spec: parse a complete double-quoted string literal
of the target grammar back to the string it denotes. -/
def parseLit (s : String) : Option String :=
  match s.data with
  | c :: cs => if c = '"' then (unqGo cs).map String.mk else none
  | [] => none

/-- Does the pattern occur at the head of the text. -/
def leadsWith : List Char → List Char → Bool
  | [], _ => true
  | _ :: _, [] => false
  | a :: as, b :: bs => a == b && leadsWith as bs

/-- Does the pattern occur anywhere in the text (substring test). -/
def occursIn (needle : List Char) : List Char → Bool
  | [] => leadsWith needle []
  | c :: rest => leadsWith needle (c :: rest) || occursIn needle rest

/-- The replacement-field keys referenced by a template, scanned with the
same automaton as `fmtAux`; `none` when the template is malformed. -/
def keysAux : FmtState → List Char → Option (List String)
  | .text, [] => some []
  | .text, [c] =>
    if c = lbrace then none else if c = rbrace then none else some []
  | .text, c :: d :: ds =>
    if c = lbrace then
      (if d = lbrace then keysAux .text ds else keysAux (.key []) (d :: ds))
    else if c = rbrace then
      (if d = rbrace then keysAux .text ds else none)
    else keysAux .text (d :: ds)
  | .key _, [] => none
  | .key acc, c :: cs =>
    if c = rbrace then (keysAux .text cs).map (fun ks => String.mk acc :: ks)
    else keysAux (.key (acc ++ [c])) cs

/-- The placeholders a template references, in order of occurrence; `none`
for a malformed template. -/
def templKeys (t : String) : Option (List String) := keysAux .text t.data

/-- A role template with only a username pattern, used in the worked
examples. -/
def roleOnly (t : String) : RoleTemplate := { userTemplate := t, publish := [], subscribe := [] }

/-- Worked-example topology: two zones, one subzone, one leaf. -/
def sampleTopo : TopologyCfg :=
  { centralId := "C1", zones := ["z1", "z2"], subzonesPerZone := ["sz1"],
    leavesPerAttachment := ["leaf1"], zoneForCentralAttachedLeaves := "zc" }

/-- Worked-example role matrix (the zone-relay publish list carries a
duplicate subject on purpose, to exercise deduplication). -/
def sampleRoles : RolesCfg :=
  { relayCentral := roleOnly "relay.\x7bcentralId\x7d"
    relayZone :=
      { userTemplate := "relay.\x7bzone\x7d"
        publish := ["ops.\x7bzone\x7d.cmd", "ops.\x7bzone\x7d.cmd"]
        subscribe := ["sync.\x7bcentralId\x7d"] }
    relaySubzone := roleOnly "relay.\x7bzone\x7d.\x7bsubzone\x7d"
    leafCentral := roleOnly "leaf.c.\x7bleafId\x7d"
    leafZone :=
      { userTemplate := "leaf.\x7bzone\x7d.\x7bleafId\x7d"
        publish := ["p.\x7bzone\x7d", "q"]
        subscribe := ["s.\x7bleafId\x7d"] }
    leafSubzone := roleOnly "leaf.\x7bzone\x7d.\x7bsubzone\x7d.\x7bleafId\x7d" }

/-- Worked-example admin block with full credentials. -/
def sampleAdmin : AdminCfg :=
  { username := some "admin", password := some "pw",
    publishAllow := none, subscribeAllow := none }

/-- Worked-example document with enforcement on. -/
def cfgSample : Config :=
  { topology := sampleTopo, roles := sampleRoles,
    auth := some
      { enforcePermissions := some true, passwordPfx := some "pwd_",
        admin := some sampleAdmin,
        jsClientInternal := some
          { publishAllow := some ["x.ack"], subscribeAllow := some ["x.reply"] } } }

/-- Worked-example document with enforcement off (authentication only). -/
def cfgPlain : Config :=
  { topology := sampleTopo, roles := sampleRoles,
    auth := some
      { enforcePermissions := some false, passwordPfx := some "pwd_",
        admin := some sampleAdmin,
        jsClientInternal := some
          { publishAllow := some ["x.ack"], subscribeAllow := some ["x.reply"] } } }

/-- Worked-example document whose admin block misses the password. -/
def cfgNoPw : Config :=
  { topology := sampleTopo, roles := sampleRoles,
    auth := some
      { enforcePermissions := some true, passwordPfx := none,
        admin := some
          { username := some "admin", password := none,
            publishAllow := none, subscribeAllow := none },
        jsClientInternal := none } }

/-- Worked-example document with enforcement off and an empty admin
username. -/
def cfgPlainNoUser : Config :=
  { topology := sampleTopo, roles := sampleRoles,
    auth := some
      { enforcePermissions := some false, passwordPfx := none,
        admin := some
          { username := some "", password := some "pw",
            publishAllow := none, subscribeAllow := none },
        jsClientInternal := none } }

end Topo

deriving instance DecidableEq for Except

namespace Topo

theorem ebind_ok {ε α β : Type} (e : Except ε α) (k : α → Except ε β) (b : β) :
    (e >>= k) = Except.ok b ↔ ∃ a, e = Except.ok a ∧ k a = Except.ok b := by
  cases e <;> simp [Bind.bind, Except.bind]

theorem epure_eq {ε α : Type} (a : α) : (pure a : Except ε α) = Except.ok a := rfl

theorem mapE_ok_iff {α β ε : Type} {f : α → Except ε β} :
    ∀ {l : List α} {ys : List β},
      mapE f l = .ok ys ↔ List.Forall₂ (fun a b => f a = .ok b) l ys := by
  intro l
  induction l with
  | nil =>
    intro ys
    simp only [mapE, List.forall₂_nil_left_iff]
    exact ⟨fun h => (Except.ok.injEq _ _).mp h |>.symm, fun h => by simp [h]⟩
  | cons x xs ih =>
    intro ys
    constructor
    · intro h
      cases hfx : f x with
      | error e => rw [mapE, hfx] at h; exact absurd h (by simp)
      | ok y =>
        cases hm : mapE f xs with
        | error e => rw [mapE, hfx, hm] at h; exact absurd h (by simp)
        | ok ys' =>
          rw [mapE, hfx, hm] at h
          cases h
          exact List.Forall₂.cons hfx (ih.mp hm)
    · intro h
      cases h with
      | cons hfx hrest =>
        rw [mapE, hfx, ih.mpr hrest]

theorem forall₂_map_right {α β γ : Type} {R : α → β → Prop} (g : β → γ) (g' : α → γ)
    (hg : ∀ a b, R a b → g b = g' a) :
    ∀ {l : List α} {ys : List β}, List.Forall₂ R l ys → ys.map g = l.map g' := by
  intro l ys h
  induction h with
  | nil => rfl
  | cons hR _ ihm => simp [hg _ _ hR, ihm]

theorem forall₂_mem_right {α β : Type} {R : α → β → Prop} {P : β → Prop}
    (hg : ∀ a b, R a b → P b) :
    ∀ {l : List α} {ys : List β}, List.Forall₂ R l ys → ∀ b ∈ ys, P b := by
  intro l ys h
  induction h with
  | nil => intro b hb; cases hb
  | cons hR _ ihm =>
    intro b hb
    rcases List.mem_cons.mp hb with h1 | h2
    · exact h1 ▸ hg _ _ hR
    · exact ihm b h2

theorem prod2_length {α β : Type} (xs : List α) (ys : List β) :
    (prod2 xs ys).length = xs.length * ys.length := by
  induction xs with
  | nil => simp [prod2]
  | cons x xs ih => simp [prod2, ih, Nat.succ_mul, Nat.add_comm]

theorem prod3_length {α β γ : Type} (xs : List α) (ys : List β) (zs : List γ) :
    (prod3 xs ys zs).length = xs.length * (ys.length * zs.length) := by
  rw [prod3, prod2_length, prod2_length]

theorem char_lt_iff (a b : Char) : a < b ↔ a.toNat < b.toNat := Iff.rfl

theorem listLeB_iff_not_lex :
    ∀ as bs : List Char, listLeB as bs = true ↔ ¬ List.Lex (· < ·) bs as := by
  intro as
  induction as with
  | nil =>
    intro bs
    refine iff_of_true rfl ?_
    intro h
    cases h
  | cons a as ih =>
    intro bs
    cases bs with
    | nil =>
      refine iff_of_false (by simp [listLeB]) ?_
      intro h
      exact h List.Lex.nil
    | cons b bs =>
      simp only [listLeB]
      by_cases h1 : a.toNat < b.toNat
      · rw [if_pos h1]
        refine iff_of_true rfl ?_
        intro hlt
        cases hlt with
        | cons h => exact lt_irrefl a ((char_lt_iff a a).mpr h1)
        | rel h => exact lt_asymm ((char_lt_iff a b).mpr h1) h
      · by_cases h2 : b.toNat < a.toNat
        · rw [if_neg h1, if_pos h2]
          refine iff_of_false (by simp) ?_
          intro hn
          exact hn (List.Lex.rel ((char_lt_iff b a).mpr h2))
        · have hab : a = b :=
            le_antisymm (not_lt.mp fun hc => h2 ((char_lt_iff b a).mp hc))
              (not_lt.mp fun hc => h1 ((char_lt_iff a b).mp hc))
          subst hab
          rw [if_neg h1, if_neg h2, ih bs]
          constructor
          · intro h3 hlt
            cases hlt with
            | cons h => exact h3 h
            | rel h => exact lt_irrefl a h
          · intro h3 hlt
            exact h3 (List.Lex.cons hlt)

theorem strLeB_iff_le (a b : String) : strLeB a b = true ↔ a ≤ b := by
  rw [strLeB, listLeB_iff_not_lex]
  have h : (b < a) ↔ List.Lex (· < ·) b.data a.data := by
    rw [String.lt_iff_toList_lt]
    exact Iff.rfl
  rw [← h, not_lt]

theorem strLeB_total (a b : String) (h : strLeB a b = false) : strLeB b a = true := by
  rw [strLeB_iff_le]
  exact le_of_not_le (fun hc => by rw [(strLeB_iff_le a b).mpr hc] at h; cases h)

theorem insertStr_perm (x : String) (l : List String) : List.Perm (insertStr x l) (x :: l) := by
  induction l with
  | nil => exact List.Perm.refl _
  | cons y ys ih =>
    rw [insertStr]
    by_cases h : strLeB x y = true
    · rw [if_pos h]
    · rw [if_neg h]
      exact (ih.cons y).trans (List.Perm.swap x y ys)

theorem mem_insertStr (x z : String) (l : List String) :
    z ∈ insertStr x l ↔ z = x ∨ z ∈ l := by
  rw [(insertStr_perm x l).mem_iff, List.mem_cons]

theorem pairwise_insertStr (x : String) (l : List String)
    (h : l.Pairwise (· ≤ ·)) : (insertStr x l).Pairwise (· ≤ ·) := by
  induction l with
  | nil => simp [insertStr]
  | cons y ys ih =>
    rw [insertStr]
    rcases List.pairwise_cons.mp h with ⟨hy, hys⟩
    by_cases hc : strLeB x y = true
    · rw [if_pos hc]
      refine List.pairwise_cons.mpr ⟨?_, h⟩
      intro z hz
      rcases List.mem_cons.mp hz with h1 | h2
      · exact h1 ▸ (strLeB_iff_le x y).mp hc
      · exact le_trans ((strLeB_iff_le x y).mp hc) (hy z h2)
    · rw [if_neg hc]
      refine List.pairwise_cons.mpr ⟨?_, ih hys⟩
      intro z hz
      rcases (mem_insertStr x z ys).mp hz with h1 | h2
      · exact h1 ▸ (strLeB_iff_le y x).mp
          (strLeB_total x y (Bool.not_eq_true _ ▸ Bool.of_not_eq_true hc))
      · exact hy z h2

theorem sortStrings_perm (l : List String) : List.Perm (sortStrings l) l := by
  induction l with
  | nil => exact List.Perm.refl _
  | cons x xs ih =>
    exact (insertStr_perm x (sortStrings xs)).trans (ih.cons x)

theorem pairwise_sortStrings (l : List String) : (sortStrings l).Pairwise (· ≤ ·) := by
  induction l with
  | nil => simp [sortStrings]
  | cons x xs ih => exact pairwise_insertStr x _ ih

theorem mem_sortStrings (l : List String) (x : String) : x ∈ sortStrings l ↔ x ∈ l :=
  (sortStrings_perm l).mem_iff

theorem nodup_sortStrings (l : List String) (h : l.Nodup) : (sortStrings l).Nodup :=
  ((sortStrings_perm l).nodup_iff).mpr h

theorem sortStrings_eq_of_perm (l l' : List String) (hp : List.Perm l l') :
    sortStrings l = sortStrings l' := by
  refine List.eq_of_perm_of_sorted ?_ (pairwise_sortStrings l) (pairwise_sortStrings l')
  exact (sortStrings_perm l).trans (hp.trans (sortStrings_perm l').symm)

theorem mem_allowList (l : List String) (x : String) : x ∈ allowList l ↔ x ∈ l := by
  rw [allowList, mem_sortStrings, List.mem_dedup]

theorem pairwise_lt_allowList (l : List String) : (allowList l).Pairwise (· < ·) := by
  have hnd : (allowList l).Nodup := nodup_sortStrings _ l.nodup_dedup
  have hle : (allowList l).Pairwise (· ≤ ·) := pairwise_sortStrings _
  exact (hle.and hnd).imp (fun h => lt_of_le_of_ne h.1 h.2)

theorem allowListOrd_eq (oracle : List String → List String)
    (hperm : ∀ l, List.Perm (oracle l) l) (l : List String) :
    allowListOrd oracle l = allowList l :=
  sortStrings_eq_of_perm _ _ (hperm l.dedup)

theorem expand_ok_elim {cfg : Config} {users : List UserRec}
    (h : expand_role_users cfg = .ok users) :
    ∃ (c : UserRec) (zu szu clu zlu szlu : List UserRec),
      users = c :: (zu ++ (szu ++ (clu ++ (zlu ++ szlu)))) ∧
      (c.role = "relayCentral" ∧ c.zone = none ∧ c.subzone = none ∧ c.leafId = none) ∧
      List.Forall₂ (fun z (u : UserRec) =>
        u.role = "relayZone" ∧ u.zone = some z ∧ u.subzone = none ∧ u.leafId = none)
        cfg.topology.zones zu ∧
      List.Forall₂ (fun p (u : UserRec) =>
        u.role = "relaySubzone" ∧ u.zone = some p.1 ∧ u.subzone = some p.2 ∧ u.leafId = none)
        (prod2 cfg.topology.zones cfg.topology.subzonesPerZone) szu ∧
      List.Forall₂ (fun leaf (u : UserRec) =>
        u.role = "leafCentral" ∧ u.zone = some cfg.topology.zoneForCentralAttachedLeaves ∧
          u.subzone = none ∧ u.leafId = some leaf)
        cfg.topology.leavesPerAttachment clu ∧
      List.Forall₂ (fun p (u : UserRec) =>
        u.role = "leafZone" ∧ u.zone = some p.1 ∧ u.subzone = none ∧ u.leafId = some p.2)
        (prod2 cfg.topology.zones cfg.topology.leavesPerAttachment) zlu ∧
      List.Forall₂ (fun p (u : UserRec) =>
        u.role = "leafSubzone" ∧ u.zone = some p.1 ∧ u.subzone = some p.2.1 ∧
          u.leafId = some p.2.2)
        (prod3 cfg.topology.zones cfg.topology.subzonesPerZone
          cfg.topology.leavesPerAttachment) szlu := by
  simp only [expand_role_users, ebind_ok, epure_eq, Except.ok.injEq] at h
  obtain ⟨cUser, _, cPub, _, cSub, _, zu, hzu, szu, hszu, clu, hclu, zlu, hzlu,
    szlu, hszlu, hus⟩ := h
  refine ⟨⟨cUser, "relayCentral", none, none, none, cPub, cSub⟩, zu, szu, clu, zlu, szlu,
    ?_, ⟨rfl, rfl, rfl, rfl⟩, ?_, ?_, ?_, ?_, ?_⟩
  · rw [← hus]
    simp
  · refine (mapE_ok_iff.mp hzu).imp ?_
    intro z u hf
    simp only [ebind_ok, epure_eq, Except.ok.injEq] at hf
    obtain ⟨un, _, pb, _, sb, _, hu⟩ := hf
    rw [← hu]
    exact ⟨rfl, rfl, rfl, rfl⟩
  · refine (mapE_ok_iff.mp hszu).imp ?_
    intro p u hf
    simp only [ebind_ok, epure_eq, Except.ok.injEq] at hf
    obtain ⟨un, _, pb, _, sb, _, hu⟩ := hf
    rw [← hu]
    exact ⟨rfl, rfl, rfl, rfl⟩
  · refine (mapE_ok_iff.mp hclu).imp ?_
    intro leaf u hf
    simp only [ebind_ok, epure_eq, Except.ok.injEq] at hf
    obtain ⟨un, _, pb, _, sb, _, hu⟩ := hf
    rw [← hu]
    exact ⟨rfl, rfl, rfl, rfl⟩
  · refine (mapE_ok_iff.mp hzlu).imp ?_
    intro p u hf
    simp only [ebind_ok, epure_eq, Except.ok.injEq] at hf
    obtain ⟨un, _, pb, _, sb, _, hu⟩ := hf
    rw [← hu]
    exact ⟨rfl, rfl, rfl, rfl⟩
  · refine (mapE_ok_iff.mp hszlu).imp ?_
    intro p u hf
    simp only [ebind_ok, epure_eq, Except.ok.injEq] at hf
    obtain ⟨un, _, pb, _, sb, _, hu⟩ := hf
    rw [← hu]
    exact ⟨rfl, rfl, rfl, rfl⟩

theorem build_entries_admin_missing {cfg : Config}
    (h : (!truthyStr (adminOf cfg).username || !truthyStr (adminOf cfg).password) = true) :
    build_nats_entries cfg =
      .error (.valueError "auth.admin.username/password must be set in topology.yml") := by
  simp only [build_nats_entries]
  rw [if_pos h]

theorem build_authz_admin_missing {cfg : Config}
    (h : (!truthyStr (adminOf cfg).username || !truthyStr (adminOf cfg).password) = true) :
    build_nats_authz cfg =
      .error (.valueError "auth.admin.username/password must be set in topology.yml") := by
  rw [build_nats_authz, build_entries_admin_missing h]

theorem build_entries_ok_enforce {cfg : Config} {entries : List Entry}
    (hE : enforceOf cfg = true) (h : build_nats_entries cfg = .ok entries) :
    ∃ us, expand_role_users cfg = .ok us ∧
      entries =
        { user := (adminOf cfg).username.getD "", password := (adminOf cfg).password.getD "",
          permissions := some ((adminOf cfg).publishAllow.getD [">"],
                               (adminOf cfg).subscribeAllow.getD [">"]) } ::
        us.map (fun u =>
          { user := u.username, password := pwdPfx cfg ++ u.username,
            permissions := some (allowList (u.publish ++ jsPub cfg),
                                 allowList (u.subscribe ++ jsSub cfg)) }) := by
  simp only [build_nats_entries, hE] at h
  split at h
  · exact absurd h (by simp)
  · cases hex : expand_role_users cfg with
    | error e => rw [hex] at h; simp at h
    | ok us =>
      rw [hex] at h
      simp only [if_true, Except.ok.injEq] at h
      exact ⟨us, rfl, h.symm⟩

theorem build_entries_ok_plain {cfg : Config} {entries : List Entry}
    (hE : enforceOf cfg = false) (h : build_nats_entries cfg = .ok entries) :
    ∃ us, expand_role_users cfg = .ok us ∧
      entries =
        { user := (adminOf cfg).username.getD "",
          password := (adminOf cfg).password.getD "", permissions := none } ::
        us.map (fun u =>
          { user := u.username, password := pwdPfx cfg ++ u.username,
            permissions := none }) := by
  simp only [build_nats_entries, hE] at h
  split at h
  · exact absurd h (by simp)
  · cases hex : expand_role_users cfg with
    | error e => rw [hex] at h; simp at h
    | ok us =>
      rw [hex] at h
      simp only [Bool.false_eq_true, if_false, Except.ok.injEq] at h
      exact ⟨us, rfl, h.symm⟩

@[simp]
theorem except_map_ok {ε α β : Type} (f : α → β) (a : α) :
    (Except.ok a : Except ε α).map f = .ok (f a) := rfl

@[simp]
theorem except_map_error {ε α β : Type} (f : α → β) (e : ε) :
    (Except.error e : Except ε α).map f = .error e := rfl

theorem fmtAux_keysAux (ctx : String → Option String) :
    ∀ (st : FmtState) (cs : List Char) (ks : List String), keysAux st cs = some ks →
      ((∀ k ∈ ks, (ctx k).isSome) → ∃ r, fmtAux ctx st cs = .ok r) ∧
      (∀ k, ks.find? (fun k2 => (ctx k2).isNone) = some k →
        fmtAux ctx st cs = .error (.missingKey k)) := by
  intro st cs
  induction st, cs using keysAux.induct with
  | case1 =>
    intro ks h
    simp only [keysAux, Option.some.injEq] at h
    subst h
    exact ⟨fun _ => ⟨[], rfl⟩, fun k hk => by simp at hk⟩
  | case2 =>
    intro ks h
    simp [keysAux] at h
  | case3 hne =>
    intro ks h
    simp [keysAux, hne] at h
  | case4 c h1 h2 =>
    intro ks h
    simp only [keysAux, if_neg h1, if_neg h2, Option.some.injEq] at h
    subst h
    refine ⟨fun _ => ⟨[c], ?_⟩, fun k hk => by simp at hk⟩
    simp [fmtAux, if_neg h1, if_neg h2]
  | case5 ds ih =>
    intro ks h
    simp only [keysAux, if_pos rfl] at h
    obtain ⟨hok, herr⟩ := ih ks h
    refine ⟨fun hall => ?_, fun k hk => ?_⟩
    · obtain ⟨r, hr⟩ := hok hall
      exact ⟨lbrace :: r, by simp [fmtAux, hr]⟩
    · simp [fmtAux, herr k hk]
  | case6 d ds hne ih =>
    intro ks h
    simp only [keysAux, if_pos rfl, if_neg hne] at h
    obtain ⟨hok, herr⟩ := ih ks h
    refine ⟨fun hall => ?_, fun k hk => ?_⟩
    · obtain ⟨r, hr⟩ := hok hall
      refine ⟨r, ?_⟩
      rw [← hr]
      simp [fmtAux, if_neg hne]
    · rw [← herr k hk]
      simp [fmtAux, if_neg hne]
  | case7 ds hne ih =>
    intro ks h
    simp only [keysAux, if_neg hne, if_pos rfl] at h
    obtain ⟨hok, herr⟩ := ih ks h
    refine ⟨fun hall => ?_, fun k hk => ?_⟩
    · obtain ⟨r, hr⟩ := hok hall
      exact ⟨rbrace :: r, by simp [fmtAux, if_neg hne, hr]⟩
    · simp [fmtAux, if_neg hne, herr k hk]
  | case8 d ds hne hne2 =>
    intro ks h
    simp [keysAux, hne, hne2] at h
  | case9 c d ds h1 h2 ih =>
    intro ks h
    simp only [keysAux, if_neg h1, if_neg h2] at h
    obtain ⟨hok, herr⟩ := ih ks h
    refine ⟨fun hall => ?_, fun k hk => ?_⟩
    · obtain ⟨r, hr⟩ := hok hall
      exact ⟨c :: r, by simp [fmtAux, if_neg h1, if_neg h2, hr]⟩
    · simp [fmtAux, if_neg h1, if_neg h2, herr k hk]
  | case10 acc =>
    intro ks h
    simp [keysAux] at h
  | case11 acc cs ih =>
    intro ks h
    simp only [keysAux, if_true, Option.map_eq_some'] at h
    obtain ⟨ks', hks', hcons⟩ := h
    obtain ⟨hok, herr⟩ := ih ks' hks'
    cases hctx : ctx (String.mk acc) with
    | none =>
      refine ⟨fun hall => ?_, fun k hk => ?_⟩
      · exact absurd (hall (String.mk acc) (by simp [← hcons]))
          (by simp [Option.isSome, hctx])
      · have hfst : (String.mk acc :: ks').find? (fun k2 => (ctx k2).isNone) =
            some (String.mk acc) :=
          List.find?_cons_of_pos _ (by simp [hctx])
      -- the first missing key of the template is the key of this field
        rw [← hcons] at hk
        rw [hfst] at hk
        cases hk
        simp [fmtAux, hctx]
    | some v =>
      refine ⟨fun hall => ?_, fun k hk => ?_⟩
      · obtain ⟨r, hr⟩ := hok (fun k hkmem => hall k (by simp [← hcons, hkmem]))
        exact ⟨v.data ++ r, by simp [fmtAux, hctx, hr]⟩
      · rw [← hcons, List.find?_cons_of_neg _ (by simp [hctx])] at hk
        simp [fmtAux, hctx, herr k hk]
  | case12 acc c cs hne ih =>
    intro ks h
    simp only [keysAux, if_neg hne] at h
    obtain ⟨hok, herr⟩ := ih ks h
    refine ⟨fun hall => ?_, fun k hk => ?_⟩
    · obtain ⟨r, hr⟩ := hok hall
      refine ⟨r, ?_⟩
      rw [← hr]
      simp [fmtAux, if_neg hne]
    · rw [← herr k hk]
      simp [fmtAux, if_neg hne]

theorem unqGo_escQ (l : List Char) (hl : ('\\' : Char) ∉ l) :
    unqGo (escQ l ++ [('\x22' : Char)]) = some l := by
  induction l with
  | nil => simp [escQ, unqGo]
  | cons c cs ih =>
    have hc : ¬ c = ('\\' : Char) := fun h => hl (h ▸ List.mem_cons_self c cs)
    have hcs : ('\\' : Char) ∉ cs := fun h => hl (List.mem_cons_of_mem c h)
    by_cases hq : c = ('\x22' : Char)
    · subst hq
      simp [escQ, unqGo, ih hcs]
    · simp only [escQ, if_neg hq]
      rw [unqGo.eq_def]
      simp [hq, hc, ih hcs]

theorem parseLit_q (val : String) (h : ('\\' : Char) ∉ val.data) :
    parseLit (q val) = some val := by
  have hdata : (q val).data = ('\x22' : Char) :: (escQ val.data ++ [('\x22' : Char)]) := by
    simp [q, String.data_append]
  rw [parseLit, hdata]
  simp [unqGo_escQ val.data h]

theorem renderEntries_false_eq (l : List Entry) :
    renderEntries false l = authOnlyLines l := by
  induction l with
  | nil => rfl
  | cons e rest ih =>
    cases rest with
    | nil =>
      show renderEntryLines false e true = _
      simp [renderEntryLines, authOnlyLines]
    | cons e2 rest2 =>
      show renderEntryLines false e false ++ renderEntries false (e2 :: rest2) = _
      rw [ih]
      simp [renderEntryLines, authOnlyLines]

theorem build_entries_ord_eq (oracle : List String → List String)
    (hperm : ∀ l, List.Perm (oracle l) l) (cfg : Config) :
    build_nats_entries_ord oracle cfg = build_nats_entries cfg := by
  simp only [build_nats_entries_ord, build_nats_entries, allowListOrd_eq oracle hperm]

/-- C2: for every topology with `Z` zones, `S` subzones per zone and `L`
leaves per attachment point, `expand_role_users` returns exactly
`1 + Z + Z*S + L + Z*L + Z*S*L` principals. -/
theorem C2_cardinality (cfg : Config) (users : List UserRec)
    (h : expand_role_users cfg = .ok users) :
    users.length =
      1 + cfg.topology.zones.length
        + cfg.topology.zones.length * cfg.topology.subzonesPerZone.length
        + cfg.topology.leavesPerAttachment.length
        + cfg.topology.zones.length * cfg.topology.leavesPerAttachment.length
        + cfg.topology.zones.length * cfg.topology.subzonesPerZone.length
            * cfg.topology.leavesPerAttachment.length := by
  obtain ⟨c, zu, szu, clu, zlu, szlu, hus, _, h1, h2, h3, h4, h5⟩ := expand_ok_elim h
  subst hus
  simp only [List.length_cons, List.length_append, List.length_singleton,
    ← h1.length_eq, ← h2.length_eq, ← h3.length_eq, ← h4.length_eq, ← h5.length_eq,
    prod2_length, prod3_length]
  ring

/-- C2 witness: on the worked example (2 zones, 1 subzone, 1 leaf) the
expansion succeeds and has 1+2+2+1+2+2 = 10 principals. -/
theorem C2_cardinality_witness :
    ∃ users, expand_role_users cfgSample = .ok users ∧ users.length = 10 := by
  refine ⟨(expand_role_users cfgSample).toOption.getD [], by decide, ?_⟩
  rw [C2_cardinality cfgSample _ (by decide)]
  decide

/-- C4: when the admin principal lacks a non-empty username or a non-empty
password, `build_nats_authz` returns an error and produces no output text
at all. -/
theorem C4_admin_precondition (cfg : Config)
    (h : truthyStr (adminOf cfg).username = false ∨
         truthyStr (adminOf cfg).password = false) :
    build_nats_authz cfg =
      .error (.valueError "auth.admin.username/password must be set in topology.yml") := by
  apply build_authz_admin_missing
  rcases h with h | h <;> simp [h]

/-- C4 witness: the worked example missing the admin password aborts with
the configuration error. -/
theorem C4_admin_precondition_witness :
    build_nats_authz cfgNoPw =
      .error (.valueError "auth.admin.username/password must be set in topology.yml") :=
  C4_admin_precondition cfgNoPw (Or.inr (by decide))

/-- C5: with enforcement off, every rendered entry has no permissions
payload, and the output is exactly the authentication-only serialization in
which each entry consists of a user line and a password line only. -/
theorem C5_mode_toggle (cfg : Config) (entries : List Entry)
    (hE : enforceOf cfg = false) (he : build_nats_entries cfg = .ok entries) :
    (∀ e ∈ entries, e.permissions = none) ∧
    build_nats_authz cfg = .ok (String.intercalate "\n"
      (["authorization \x7b", "  users = ["] ++ authOnlyLines entries
        ++ ["  ]", "\x7d"]) ++ "\n") := by
  obtain ⟨us, hex, hent⟩ := build_entries_ok_plain hE he
  constructor
  · intro e hm
    rw [hent] at hm
    rcases List.mem_cons.mp hm with h1 | h2
    · rw [h1]
    · obtain ⟨u, _, rfl⟩ := List.mem_map.mp h2
      rfl
  · simp only [build_nats_authz, he, hE, renderEntries_false_eq]

/-- C5 witness: the worked authentication-only example renders with no
permission blocks. -/
theorem C5_mode_toggle_witness :
    (∀ e ∈ (build_nats_entries cfgPlain).toOption.getD [], e.permissions = none) ∧
    build_nats_authz cfgPlain = .ok (String.intercalate "\n"
      (["authorization \x7b", "  users = ["]
        ++ authOnlyLines ((build_nats_entries cfgPlain).toOption.getD [])
        ++ ["  ]", "\x7d"]) ++ "\n") :=
  C5_mode_toggle cfgPlain _ (by decide) (by decide)

/-- C8: in both enforcement modes, every non-admin entry (the tail of the
entry list, after the admin head) carries the password synthesized as the
configured prefix concatenated with its username. -/
theorem C8_password_synthesis (cfg : Config) (entries : List Entry)
    (he : build_nats_entries cfg = .ok entries) (e : Entry)
    (hmem : e ∈ entries.tail) :
    e.password = pwdPfx cfg ++ e.user := by
  cases hE : enforceOf cfg with
  | true =>
    obtain ⟨us, _, hent⟩ := build_entries_ok_enforce hE he
    rw [hent] at hmem
    obtain ⟨u, _, rfl⟩ := List.mem_map.mp hmem
    rfl
  | false =>
    obtain ⟨us, _, hent⟩ := build_entries_ok_plain hE he
    rw [hent] at hmem
    obtain ⟨u, _, rfl⟩ := List.mem_map.mp hmem
    rfl

/-- C8 witness: the first non-admin entry of the worked example has
password prefix ++ username. -/
theorem C8_password_synthesis_witness :
    ∃ e, e ∈ ((build_nats_entries cfgSample).toOption.getD []).tail ∧
      e.password = pwdPfx cfgSample ++ e.user := by
  refine ⟨((build_nats_entries cfgSample).toOption.getD []).tail.getD 0
    { user := "", password := "" }, ?_, ?_⟩
  · decide
  · exact C8_password_synthesis cfgSample
      ((build_nats_entries cfgSample).toOption.getD []) (by decide) _ (by decide)

/-- C9: rendering is a pure function of the document: even with the
iteration order of the Python set made explicit as an arbitrary
permutation oracle, the output text is byte-identical to the canonical
run. -/
theorem C9_determinism (oracle : List String → List String)
    (hperm : ∀ l, List.Perm (oracle l) l) (cfg : Config) :
    build_nats_authz_ord oracle cfg = build_nats_authz cfg := by
  rw [build_nats_authz_ord, build_nats_authz, build_entries_ord_eq oracle hperm]

/-- C9 witness: the reversal oracle yields the same text as the canonical
run on the worked example. -/
theorem C9_determinism_witness :
    build_nats_authz_ord List.reverse cfgSample = build_nats_authz cfgSample :=
  C9_determinism List.reverse (fun l => l.reverse_perm) cfgSample

/-- C10: the admin-credential check runs before the enforcement branch:
even in authentication-only mode a missing or empty admin username or
password aborts with the configuration error. -/
theorem C10_admin_check_unconditional (cfg : Config)
    (_hmode : enforceOf cfg = false)
    (h : truthyStr (adminOf cfg).username = false ∨
         truthyStr (adminOf cfg).password = false) :
    build_nats_authz cfg =
      .error (.valueError "auth.admin.username/password must be set in topology.yml") := by
  apply build_authz_admin_missing
  rcases h with h | h <;> simp [h]

/-- C10 witness: authentication-only mode with an empty admin username
still aborts. -/
theorem C10_admin_check_unconditional_witness :
    build_nats_authz cfgPlainNoUser =
      .error (.valueError "auth.admin.username/password must be set in topology.yml") :=
  C10_admin_check_unconditional cfgPlainNoUser (by decide) (Or.inl (by decide))

/-- C1: in enforced mode the rendered entry at position `i+1` (the `i`-th
non-admin entry) corresponds to the `i`-th expanded principal, and its
publish allow-list is strictly sorted (hence duplicate-free) and contains
exactly the union of the principal's publish subjects and the configured
internal publish subjects; identically for subscribe. -/
theorem C1_allow_closure (cfg : Config) (entries : List Entry)
    (hE : enforceOf cfg = true) (he : build_nats_entries cfg = .ok entries)
    (i : Nat) (e : Entry) (hi : entries.get? (i + 1) = some e) :
    ∃ us u, expand_role_users cfg = .ok us ∧ us.get? i = some u ∧
      ∃ pub sub, e.permissions = some (pub, sub) ∧
        pub.Pairwise (· < ·) ∧ (∀ s, s ∈ pub ↔ s ∈ u.publish ∨ s ∈ jsPub cfg) ∧
        sub.Pairwise (· < ·) ∧ (∀ s, s ∈ sub ↔ s ∈ u.subscribe ∨ s ∈ jsSub cfg) := by
  obtain ⟨us, hex, hent⟩ := build_entries_ok_enforce hE he
  rw [hent, List.get?_cons_succ, List.get?_map] at hi
  cases hu : us.get? i with
  | none => rw [hu] at hi; cases hi
  | some u =>
    rw [hu, Option.map_some'] at hi
    cases hi
    refine ⟨us, u, hex, hu, allowList (u.publish ++ jsPub cfg),
      allowList (u.subscribe ++ jsSub cfg), rfl,
      pairwise_lt_allowList _, fun s => ?_, pairwise_lt_allowList _, fun s => ?_⟩
    · rw [mem_allowList, List.mem_append]
    · rw [mem_allowList, List.mem_append]

/-- C1 witness: instantiated on the worked example at the first non-admin
entry. -/
theorem C1_allow_closure_witness :
    ∃ us u, expand_role_users cfgSample = .ok us ∧ us.get? 0 = some u ∧
      ∃ pub sub,
        (((build_nats_entries cfgSample).toOption.getD []).get? 1 |>.getD
            { user := "", password := "" }).permissions = some (pub, sub) ∧
        pub.Pairwise (· < ·) ∧
        (∀ s, s ∈ pub ↔ s ∈ u.publish ∨ s ∈ jsPub cfgSample) ∧
        sub.Pairwise (· < ·) ∧
        (∀ s, s ∈ sub ↔ s ∈ u.subscribe ∨ s ∈ jsSub cfgSample) :=
  C1_allow_closure cfgSample ((build_nats_entries cfgSample).toOption.getD [])
    (by decide) (by decide) 0 _ (by decide)

theorem pairwise_replicate_le (n a : Nat) :
    (List.replicate n a).Pairwise (fun x y : Nat => x ≤ y) := by
  induction n with
  | zero => simp
  | succ m ih =>
    rw [List.replicate_succ]
    refine List.pairwise_cons.mpr ⟨?_, ih⟩
    intro b hb
    rw [(List.mem_replicate.mp hb).2]

theorem pairwise_le_const_append (a : Nat) (n : Nat) (l : List Nat)
    (hl : l.Pairwise (fun x y : Nat => x ≤ y)) (hge : ∀ b ∈ l, a ≤ b) :
    (List.replicate n a ++ l).Pairwise (fun x y : Nat => x ≤ y) := by
  refine List.pairwise_append.mpr ⟨pairwise_replicate_le n a, hl, ?_⟩
  intro x hx b hb
  rw [(List.mem_replicate.mp hx).2]
  exact hge b hb

/-- C3: the expanded list starts with the central relay, its role-category
ranks are monotonically nondecreasing in the fixed category order, and
within each category the positional fields enumerate the topology's
sequences in literal nested-loop order (zone-major, then subzone, then
leaf). -/
theorem C3_category_order (cfg : Config) (users : List UserRec)
    (h : expand_role_users cfg = .ok users) :
    users.head?.map (fun u => u.role) = some "relayCentral" ∧
    (users.map (fun u => roleRank u.role)).Pairwise (fun x y : Nat => x ≤ y) ∧
    (users.filter (fun u => u.role == "relayZone")).map (fun u => u.zone)
      = cfg.topology.zones.map some ∧
    (users.filter (fun u => u.role == "relaySubzone")).map (fun u => (u.zone, u.subzone))
      = (prod2 cfg.topology.zones cfg.topology.subzonesPerZone).map
          (fun p => (some p.1, some p.2)) ∧
    (users.filter (fun u => u.role == "leafCentral")).map (fun u => u.leafId)
      = cfg.topology.leavesPerAttachment.map some ∧
    (users.filter (fun u => u.role == "leafZone")).map (fun u => (u.zone, u.leafId))
      = (prod2 cfg.topology.zones cfg.topology.leavesPerAttachment).map
          (fun p => (some p.1, some p.2)) ∧
    (users.filter (fun u => u.role == "leafSubzone")).map
        (fun u => (u.zone, u.subzone, u.leafId))
      = (prod3 cfg.topology.zones cfg.topology.subzonesPerZone
          cfg.topology.leavesPerAttachment).map
          (fun p => (some p.1, some p.2.1, some p.2.2)) := by
  obtain ⟨c, zu, szu, clu, zlu, szlu, hus, hc, h1, h2, h3, h4, h5⟩ := expand_ok_elim h
  obtain ⟨hcrole, hczone, hcsub, hcleaf⟩ := hc
  have r1 : ∀ u ∈ zu, u.role = "relayZone" :=
    forall₂_mem_right (fun a b hb => hb.1) h1
  have r2 : ∀ u ∈ szu, u.role = "relaySubzone" :=
    forall₂_mem_right (fun a b hb => hb.1) h2
  have r3 : ∀ u ∈ clu, u.role = "leafCentral" :=
    forall₂_mem_right (fun a b hb => hb.1) h3
  have r4 : ∀ u ∈ zlu, u.role = "leafZone" :=
    forall₂_mem_right (fun a b hb => hb.1) h4
  have r5 : ∀ u ∈ szlu, u.role = "leafSubzone" :=
    forall₂_mem_right (fun a b hb => hb.1) h5
  subst hus
  refine ⟨by simp [hcrole], ?_, ?_, ?_, ?_, ?_, ?_⟩
  · -- monotone category ranks
    have m1 : zu.map (fun u => roleRank u.role)
        = List.replicate cfg.topology.zones.length 1 := by
      rw [forall₂_map_right (fun u => roleRank u.role) (fun _ => 1)
        (fun a b hb => by show roleRank b.role = 1; rw [hb.1]; decide) h1, List.map_const']
    have m2 : szu.map (fun u => roleRank u.role)
        = List.replicate (prod2 cfg.topology.zones cfg.topology.subzonesPerZone).length 2 := by
      rw [forall₂_map_right (fun u => roleRank u.role) (fun _ => 2)
        (fun a b hb => by show roleRank b.role = 2; rw [hb.1]; decide) h2, List.map_const']
    have m3 : clu.map (fun u => roleRank u.role)
        = List.replicate cfg.topology.leavesPerAttachment.length 3 := by
      rw [forall₂_map_right (fun u => roleRank u.role) (fun _ => 3)
        (fun a b hb => by show roleRank b.role = 3; rw [hb.1]; decide) h3, List.map_const']
    have m4 : zlu.map (fun u => roleRank u.role)
        = List.replicate (prod2 cfg.topology.zones cfg.topology.leavesPerAttachment).length 4 := by
      rw [forall₂_map_right (fun u => roleRank u.role) (fun _ => 4)
        (fun a b hb => by show roleRank b.role = 4; rw [hb.1]; decide) h4, List.map_const']
    have m5 : szlu.map (fun u => roleRank u.role)
        = List.replicate (prod3 cfg.topology.zones cfg.topology.subzonesPerZone
            cfg.topology.leavesPerAttachment).length 5 := by
      rw [forall₂_map_right (fun u => roleRank u.role) (fun _ => 5)
        (fun a b hb => by show roleRank b.role = 5; rw [hb.1]; decide) h5, List.map_const']
    simp only [List.map_cons, List.map_append, m1, m2, m3, m4, m5, hcrole]
    have hmem5 : ∀ b ∈ (List.replicate (prod3 cfg.topology.zones
        cfg.topology.subzonesPerZone cfg.topology.leavesPerAttachment).length 5 :
          List Nat), (4 : Nat) ≤ b := by
      intro b hb
      rw [(List.mem_replicate.mp hb).2]
      omega
    have p4 := pairwise_le_const_append 4
      (prod2 cfg.topology.zones cfg.topology.leavesPerAttachment).length
      (List.replicate (prod3 cfg.topology.zones cfg.topology.subzonesPerZone
        cfg.topology.leavesPerAttachment).length 5)
      (pairwise_replicate_le _ 5) hmem5
    have hmem4 : ∀ b ∈ List.replicate (prod2 cfg.topology.zones
        cfg.topology.leavesPerAttachment).length 4 ++ List.replicate (prod3
        cfg.topology.zones cfg.topology.subzonesPerZone
        cfg.topology.leavesPerAttachment).length 5, (3 : Nat) ≤ b := by
      intro b hb
      rcases List.mem_append.mp hb with hb | hb <;>
        (rw [(List.mem_replicate.mp hb).2]; omega)
    have p3 := pairwise_le_const_append 3 cfg.topology.leavesPerAttachment.length _ p4 hmem4
    have hmem3 : ∀ b ∈ List.replicate cfg.topology.leavesPerAttachment.length 3 ++
        (List.replicate (prod2 cfg.topology.zones cfg.topology.leavesPerAttachment).length 4 ++
         List.replicate (prod3 cfg.topology.zones cfg.topology.subzonesPerZone
           cfg.topology.leavesPerAttachment).length 5), (2 : Nat) ≤ b := by
      intro b hb
      rcases List.mem_append.mp hb with hb | hb
      · rw [(List.mem_replicate.mp hb).2]
        omega
      · rcases List.mem_append.mp hb with hb | hb <;>
          (rw [(List.mem_replicate.mp hb).2]; omega)
    have p2 := pairwise_le_const_append 2
      (prod2 cfg.topology.zones cfg.topology.subzonesPerZone).length _ p3 hmem3
    have hmem2 : ∀ b ∈ List.replicate (prod2 cfg.topology.zones
        cfg.topology.subzonesPerZone).length 2 ++
        (List.replicate cfg.topology.leavesPerAttachment.length 3 ++
        (List.replicate (prod2 cfg.topology.zones cfg.topology.leavesPerAttachment).length 4 ++
         List.replicate (prod3 cfg.topology.zones cfg.topology.subzonesPerZone
           cfg.topology.leavesPerAttachment).length 5)), (1 : Nat) ≤ b := by
      intro b hb
      rcases List.mem_append.mp hb with hb | hb
      · rw [(List.mem_replicate.mp hb).2]
        omega
      · rcases List.mem_append.mp hb with hb | hb
        · rw [(List.mem_replicate.mp hb).2]; omega
        · rcases List.mem_append.mp hb with hb | hb <;>
            (rw [(List.mem_replicate.mp hb).2]; omega)
    have p1 := pairwise_le_const_append 1 cfg.topology.zones.length _ p2 hmem2
    refine List.pairwise_cons.mpr ⟨?_, p1⟩
    intro b _
    exact Nat.zero_le b
  · -- relayZone positional order
    rw [List.filter_cons_of_neg (by simp [hcrole]), List.filter_append,
      List.filter_eq_self.mpr (fun u hu => by simp [r1 u hu]),
      List.filter_append,
      List.filter_eq_nil_iff.mpr (fun u hu => by simp [r2 u hu]),
      List.filter_append,
      List.filter_eq_nil_iff.mpr (fun u hu => by simp [r3 u hu]),
      List.filter_append,
      List.filter_eq_nil_iff.mpr (fun u hu => by simp [r4 u hu]),
      List.filter_eq_nil_iff.mpr (fun u hu => by simp [r5 u hu])]
    simp only [List.append_nil]
    exact forall₂_map_right (fun u => u.zone) (fun z => some z)
      (fun a b hb => hb.2.1) h1
  · -- relaySubzone positional order
    rw [List.filter_cons_of_neg (by simp [hcrole]), List.filter_append,
      List.filter_eq_nil_iff.mpr (fun u hu => by simp [r1 u hu]),
      List.filter_append,
      List.filter_eq_self.mpr (fun u hu => by simp [r2 u hu]),
      List.filter_append,
      List.filter_eq_nil_iff.mpr (fun u hu => by simp [r3 u hu]),
      List.filter_append,
      List.filter_eq_nil_iff.mpr (fun u hu => by simp [r4 u hu]),
      List.filter_eq_nil_iff.mpr (fun u hu => by simp [r5 u hu])]
    simp only [List.append_nil, List.nil_append]
    exact forall₂_map_right (fun u => (u.zone, u.subzone))
      (fun p => (some p.1, some p.2))
      (fun a b hb => by show (b.zone, b.subzone) = _; rw [hb.2.1, hb.2.2.1]) h2
  · -- leafCentral positional order
    rw [List.filter_cons_of_neg (by simp [hcrole]), List.filter_append,
      List.filter_eq_nil_iff.mpr (fun u hu => by simp [r1 u hu]),
      List.filter_append,
      List.filter_eq_nil_iff.mpr (fun u hu => by simp [r2 u hu]),
      List.filter_append,
      List.filter_eq_self.mpr (fun u hu => by simp [r3 u hu]),
      List.filter_append,
      List.filter_eq_nil_iff.mpr (fun u hu => by simp [r4 u hu]),
      List.filter_eq_nil_iff.mpr (fun u hu => by simp [r5 u hu])]
    simp only [List.append_nil, List.nil_append]
    exact forall₂_map_right (fun u => u.leafId) (fun leaf => some leaf)
      (fun a b hb => hb.2.2.2) h3
  · -- leafZone positional order
    rw [List.filter_cons_of_neg (by simp [hcrole]), List.filter_append,
      List.filter_eq_nil_iff.mpr (fun u hu => by simp [r1 u hu]),
      List.filter_append,
      List.filter_eq_nil_iff.mpr (fun u hu => by simp [r2 u hu]),
      List.filter_append,
      List.filter_eq_nil_iff.mpr (fun u hu => by simp [r3 u hu]),
      List.filter_append,
      List.filter_eq_self.mpr (fun u hu => by simp [r4 u hu]),
      List.filter_eq_nil_iff.mpr (fun u hu => by simp [r5 u hu])]
    simp only [List.append_nil, List.nil_append]
    exact forall₂_map_right (fun u => (u.zone, u.leafId))
      (fun p => (some p.1, some p.2))
      (fun a b hb => by show (b.zone, b.leafId) = _; rw [hb.2.1, hb.2.2.2]) h4
  · -- leafSubzone positional order
    rw [List.filter_cons_of_neg (by simp [hcrole]), List.filter_append,
      List.filter_eq_nil_iff.mpr (fun u hu => by simp [r1 u hu]),
      List.filter_append,
      List.filter_eq_nil_iff.mpr (fun u hu => by simp [r2 u hu]),
      List.filter_append,
      List.filter_eq_nil_iff.mpr (fun u hu => by simp [r3 u hu]),
      List.filter_append,
      List.filter_eq_nil_iff.mpr (fun u hu => by simp [r4 u hu]),
      List.filter_eq_self.mpr (fun u hu => by simp [r5 u hu])]
    simp only [List.append_nil, List.nil_append]
    exact forall₂_map_right (fun u => (u.zone, u.subzone, u.leafId))
      (fun p => (some p.1, some p.2.1, some p.2.2))
      (fun a b hb => by show (b.zone, b.subzone, b.leafId) = _; rw [hb.2.1, hb.2.2.1, hb.2.2.2]) h5

/-- C3 witness: the ordering conclusions instantiated on the worked
example. -/
theorem C3_category_order_witness :
    ∃ users, expand_role_users cfgSample = .ok users ∧
      (users.head?.map (fun u => u.role) = some "relayCentral" ∧
      (users.map (fun u => roleRank u.role)).Pairwise (fun x y : Nat => x ≤ y) ∧
      (users.filter (fun u => u.role == "relayZone")).map (fun u => u.zone)
        = cfgSample.topology.zones.map some ∧
      (users.filter (fun u => u.role == "relaySubzone")).map (fun u => (u.zone, u.subzone))
        = (prod2 cfgSample.topology.zones cfgSample.topology.subzonesPerZone).map
            (fun p => (some p.1, some p.2)) ∧
      (users.filter (fun u => u.role == "leafCentral")).map (fun u => u.leafId)
        = cfgSample.topology.leavesPerAttachment.map some ∧
      (users.filter (fun u => u.role == "leafZone")).map (fun u => (u.zone, u.leafId))
        = (prod2 cfgSample.topology.zones cfgSample.topology.leavesPerAttachment).map
            (fun p => (some p.1, some p.2)) ∧
      (users.filter (fun u => u.role == "leafSubzone")).map
          (fun u => (u.zone, u.subzone, u.leafId))
        = (prod3 cfgSample.topology.zones cfgSample.topology.subzonesPerZone
            cfgSample.topology.leavesPerAttachment).map
            (fun p => (some p.1, some p.2.1, some p.2.2))) :=
  ⟨(expand_role_users cfgSample).toOption.getD [], by decide,
    C3_category_order cfgSample _ (by decide)⟩

/-- C6 counterexample: for the pattern `ab{zone}` instantiated in a
context providing only `centralId`, substitution raises `KeyError` whose
payload is exactly the missing key name `zone`; the pattern text does not
occur anywhere in the error payload, so the error does not identify the
pattern. -/
theorem C6_error_lacks_pattern :
    format_tokens "ab\x7bzone\x7d" (kwCtx [("centralId", "c")])
        = .error (.missingKey "zone") ∧
    occursIn "ab\x7bzone\x7d".data (errText (.missingKey "zone")).data = false := by
  constructor
  · decide
  · decide

/-- C6 (amended): if a well-formed pattern references a placeholder that is
unavailable in its instantiation context, substitution fails immediately
with a `KeyError` carrying a missing placeholder name (the first one in
scan order); no output containing a dropped or literal placeholder is ever
produced. The error does not carry the pattern itself. -/
theorem C6_missing_placeholder (t : String) (ctx : String → Option String)
    (ks : List String) (hk : templKeys t = some ks)
    (hmiss : ∃ k, k ∈ ks ∧ ctx k = none) :
    ∃ k, k ∈ ks ∧ ctx k = none ∧
      format_tokens t ctx = .error (.missingKey k) := by
  obtain ⟨k0, hk0, hc0⟩ := hmiss
  have hsome : (ks.find? (fun k2 => (ctx k2).isNone)).isSome := by
    rw [List.find?_isSome]
    exact ⟨k0, hk0, by simp [hc0]⟩
  obtain ⟨k, hkf⟩ := Option.isSome_iff_exists.mp hsome
  have hmem : k ∈ ks := List.mem_of_find?_eq_some hkf
  have hnone : ctx k = none := by
    have := List.find?_some hkf
    simpa using this
  have herr := (fmtAux_keysAux ctx .text t.data ks hk).2 k hkf
  refine ⟨k, hmem, hnone, ?_⟩
  simp only [format_tokens, herr]

/-- C6 witness: the amended statement instantiated on the counterexample
pattern and context. -/
theorem C6_missing_placeholder_witness :
    ∃ k, k ∈ ["zone"] ∧ (kwCtx [("centralId", "c")]) k = none ∧
      format_tokens "ab\x7bzone\x7d" (kwCtx [("centralId", "c")])
        = .error (.missingKey k) :=
  C6_missing_placeholder "ab\x7bzone\x7d" (kwCtx [("centralId", "c")]) ["zone"]
    (by decide) ⟨"zone", by decide, by decide⟩

/-- C7 counterexample: the string consisting of one backslash is rendered
by `q` as a literal that does not parse back to the original string under
the target string-literal rules, so the unrestricted round-trip claim is
false. -/
theorem C7_backslash_breaks_roundtrip :
    parseLit (q "\\") ≠ some "\\" := by decide

/-- C7 (amended): every value serialized by `q` is emitted double-quoted
with each embedded double quote backslash-escaped, and for every value
containing no backslash (the constrained token alphabet of usernames and
subjects) parsing the emitted literal yields back the original string. -/
theorem C7_quote_escape_roundtrip (val : String) (h : ('\\' : Char) ∉ val.data) :
    parseLit (q val) = some val :=
  parseLit_q val h

/-- C7 witness: a value with an embedded double quote round-trips. -/
theorem C7_quote_escape_roundtrip_witness :
    parseLit (q "a\x22b") = some "a\x22b" :=
  C7_quote_escape_roundtrip "a\x22b" (by decide)

end Topo
